import Mathlib

/-!
Verification development for the turn-synchronization core of the
Agentic-AI-Recognition repository.

The definitions below are a shallow embedding of the Python source:

* `src/src/services/conversation/websocket_service.py`
  (`wait_for_bot_response` and the message handler it spawns),
* `src/src/services/conversation/audio_service.py`
  (`wait_for_target_bot_greeting`, `send_all_audio_files_sequentially`),
* `src/src/services/conversation/dynamic_run_service.py`
  (`is_repeated_agent_prompt` and the loop of `run_dynamic_conversation`).

Time is modelled in milliseconds as `Nat`.  External collaborators
(the websocket transport, filesystem, TTS, the LLM generator) are
modelled as oracles indexed by call position.  The model covers runs in
which the connection stays open for the duration of a wait, as the
claims under study do.
-/

namespace Conversation

/-- An inbound websocket frame, as classified by
`WebSocketService.handle_message` / the body of `message_handler`
(websocket_service.py).  A frame is either a JSON text frame (the code
only ever reads the `type`, `response` and `delta` fields; an absent
field is modelled as `""`, matching Python falsiness of both `None` and
the empty string), a non-JSON text frame (`json.loads` raises), or a
binary frame carrying raw bytes. -/
inductive RawMsg where
  | json (ptype presponse pdelta : String)
  | unparseable (s : String)
  | binary (payload : List Nat)
deriving DecidableEq, Repr

/-- The Python value returned by `wait_for_bot_response`: either a
parsed JSON dict (the code returns `parsed` both on early resolution
and in the timeout fallback scans), or a raw unparsed element of
`responses` (the `best_response = responses[0]` fallback returns the
raw string or bytes), or the `{'type': no_response}` marker dict. -/
inductive BotResponse where
  | parsed (ptype presponse pdelta : String)
  | raw (m : RawMsg)
  | noResponse
deriving DecidableEq, Repr

/-- Settle interval: `await asyncio.sleep(0.5)` after a complete text
response (websocket_service.py line 137). -/
def settleMs : Nat := 500

/-- Per-iteration pacing: `await asyncio.sleep(0.1)` at the end of each
handler loop iteration (websocket_service.py line 142). -/
def pollMs : Nat := 100

/-- `parsed.get('type') == MESSAGE_TYPES.RESPONSE_TEXT and
parsed.get('response')`: a parseable frame of type `response.text` with
truthy response text, returned as the parsed dict. -/
def finalParse : RawMsg → Option BotResponse
  | .json t r d => if t = "response.text" ∧ r ≠ "" then some (.parsed t r d) else none
  | _ => none

/-- `parsed.get('type') == MESSAGE_TYPES.RESPONSE_TEXT_DELTA and
parsed.get('delta')`: a parseable frame of type `response.text.delta`
with truthy delta text, returned as the parsed dict. -/
def deltaParse : RawMsg → Option BotResponse
  | .json t r d => if t = "response.text.delta" ∧ d ≠ "" then some (.parsed t r d) else none
  | _ => none

/-- Python truthiness of a raw frame as stored in `responses`: a JSON
text frame parsed from a dict is a non-empty string, an unparseable
text frame is truthy iff non-empty, and a binary frame is truthy iff
its payload is non-empty. -/
def rawTruthy : RawMsg → Bool
  | .json _ _ _ => true
  | .unparseable s => s ≠ ""
  | .binary p => p ≠ []

/-- The `asyncio.TimeoutError` fallback of `wait_for_bot_response`
(websocket_service.py lines 151-177): scan `responses` for the first
complete `response.text` frame with content, else the first
`response.text.delta` frame with content, else `responses[0]`, and
return `best_response or {'type': no_response}` (so a falsy first raw
frame also yields the no-response marker). -/
def bestResponse (buf : List RawMsg) : BotResponse :=
  match buf.findSome? finalParse with
  | some v => v
  | none =>
    match buf.findSome? deltaParse with
    | some v => v
    | none =>
      match buf with
      | [] => .noResponse
      | m :: _ => if rawTruthy m then .raw m else .noResponse

/-- Result of one call to `wait_for_bot_response`: the returned Python
value, the time (ms since the wait began) at which the call returned,
whether the `asyncio.wait_for` timeout fired, and the contents of the
handler's `responses` buffer at that moment. -/
structure WaitResult where
  value : BotResponse
  time : Nat
  timedOut : Bool
  collected : List RawMsg
deriving DecidableEq, Repr

/-- The `message_handler` loop raced against `asyncio.wait_for`
(websocket_service.py lines 121-177).  Input frames are `(arrival,
frame)` pairs in wire order; the handler receives a frame at
`max arrival now` where `now` is when it became ready to receive, and
after a non-final frame sleeps `pollMs` before the next receive.  A
complete text response sleeps `settleMs` and returns early unless the
overall timeout cuts the sleep short, in which case the timeout
fallback `bestResponse` runs over the buffer (which includes that
frame).  A receive that would complete at or after the timeout is cut
off by `asyncio.wait_for`. -/
def waitLoop (timeout : Nat) : List (Nat × RawMsg) → Nat → List RawMsg → WaitResult
  | [], _, buf => ⟨bestResponse buf, timeout, true, buf⟩
  | (a, m) :: rest, now, buf =>
    let r := max a now
    if timeout ≤ r then ⟨bestResponse buf, timeout, true, buf⟩
    else
      match finalParse m with
      | some v =>
        if r + settleMs < timeout then ⟨v, r + settleMs, false, buf ++ [m]⟩
        else ⟨bestResponse (buf ++ [m]), timeout, true, buf ++ [m]⟩
      | none => waitLoop timeout rest (r + pollMs) (buf ++ [m])

/-- `WebSocketService.wait_for_bot_response(websocket, timeout)`:
run the handler from time 0 with an empty buffer. -/
def wait_for_bot_response (timeout : Nat) (frames : List (Nat × RawMsg)) : WaitResult :=
  waitLoop timeout frames 0 []

/-- The time at which the handler receives the last frame of `l`, when
it becomes ready to receive at `now`: each frame is received at
`max arrival now`, and a `pollMs` sleep separates consecutive
receives. -/
def lastRecvTime (now : Nat) : List (Nat × RawMsg) → Nat
  | [] => now
  | [(a, _)] => max a now
  | (a, _) :: rest => lastRecvTime (max a now + pollMs) rest

/-- Outcome of `AudioService.wait_for_target_bot_greeting`
(audio_service.py lines 117-166): success carrying the greeting value,
the `"Session closed by server: <kind>"` error, or the
`'No initial greeting received from Agent'` error. -/
inductive GreetingOutcome where
  | ok (g : BotResponse)
  | sessionClosedError (kind : String)
  | noGreeting
deriving DecidableEq, Repr

/-- The normalization and branching of `wait_for_target_bot_greeting`
on the value returned by `wait_for_bot_response`: bytes are replaced by
the `{'type': 'raw', 'data': '<binary>'}` dict; a dict whose type is
not `no_response` is checked against `{session.close, idle.terminate}`
and otherwise accepted as the greeting; anything else (including a raw
unparsed string) falls through to the no-greeting error. -/
def classifyGreeting : BotResponse → GreetingOutcome
  | .raw (.binary _) => .ok (.parsed "raw" "" "")
  | .parsed t r d =>
    if t = "no_response" then .noGreeting
    else if t = "session.close" ∨ t = "idle.terminate" then .sessionClosedError t
    else .ok (.parsed t r d)
  | .raw _ => .noGreeting
  | .noResponse => .noGreeting

/-- `AudioService.wait_for_target_bot_greeting(websocket, timeout)`:
await `wait_for_bot_response` and classify its value. -/
def wait_for_target_bot_greeting (timeout : Nat) (frames : List (Nat × RawMsg)) :
    GreetingOutcome :=
  classifyGreeting (wait_for_bot_response timeout frames).value

/-- One entry of `download_results`, as read by
`send_all_audio_files_sequentially`: the `success` flag, the `step`
label and the local `filePath` of the downloaded audio artifact. -/
structure DownloadResult where
  success : Bool
  step : String
  filePath : String
deriving DecidableEq, Repr

/-- One entry appended to `audio_results` by
`send_all_audio_files_sequentially` (audio_service.py lines 191-249):
a completed send-and-wait (carrying the send result payload), the
`'WebSocket closed before send'` abort entry, the `'File not found'`
entry, a caught send exception, or the `'Download failed'` entry. -/
inductive ItemOutcome where
  | sent (step : String) (stepNumber : Nat) (resp : String)
  | closedAbort (step : String) (stepNumber : Nat)
  | fileMissing (step : String) (stepNumber : Nat)
  | sendFailed (step : String) (stepNumber : Nat)
  | downloadFailed (step : String) (stepNumber : Nat)
deriving DecidableEq, Repr

/-- `AudioService.send_all_audio_files_sequentially`, from item index
`i` on.  Oracles: `closed j` is the websocket's closed flag when
checked before item `j`; `fileExists` is `os.path.exists`; `send j` is
the result of `send_audio_file_and_wait_for_response` for item `j`
(`none` models a raised exception, caught per-item).  A closed socket
appends one abort entry and breaks; a missing file appends its entry
and continues; everything else appends one entry per item. -/
def send_all_audio_files_sequentially (closed : Nat → Bool) (fileExists : String → Bool)
    (send : Nat → Option String) : List DownloadResult → Nat → List ItemOutcome
  | [], _ => []
  | dr :: rest, i =>
    if dr.success then
      if closed i then [.closedAbort dr.step (i + 1)]
      else if fileExists dr.filePath = false then
        .fileMissing dr.step (i + 1) ::
          send_all_audio_files_sequentially closed fileExists send rest (i + 1)
      else
        match send i with
        | some resp =>
          .sent dr.step (i + 1) resp ::
            send_all_audio_files_sequentially closed fileExists send rest (i + 1)
        | none =>
          .sendFailed dr.step (i + 1) ::
            send_all_audio_files_sequentially closed fileExists send rest (i + 1)
    else
      .downloadFailed dr.step (i + 1) ::
        send_all_audio_files_sequentially closed fileExists send rest (i + 1)

/-- The expected prefix of outcomes for a run of successful sends
starting at item index `i`, with `resp j` the send result of item `j`. -/
def sentOutcomes (resp : Nat → String) : List DownloadResult → Nat → List ItemOutcome
  | [], _ => []
  | dr :: rest, i => .sent dr.step (i + 1) (resp i) :: sentOutcomes resp rest (i + 1)

/-- `needle` is a prefix of `hay`, on character lists. -/
def startsWithChars : List Char → List Char → Bool
  | _, [] => true
  | [], _ :: _ => false
  | h :: hs, n :: ns => h = n && startsWithChars hs ns

/-- `needle` occurs as a contiguous substring of `hay`, on character
lists; the empty needle always occurs. -/
def containsChars : List Char → List Char → Bool
  | [], needle => needle.isEmpty
  | h :: hs, needle => startsWithChars (h :: hs) needle || containsChars hs needle

/-- Drop leading whitespace characters. -/
def dropLeadingWs : List Char → List Char
  | [] => []
  | c :: cs => if c.isWhitespace then dropLeadingWs cs else c :: cs

/-- Python `str.strip()`: drop whitespace from both ends, on character
lists. -/
def stripChars (l : List Char) : List Char :=
  (dropLeadingWs (dropLeadingWs l).reverse).reverse

/-- Python `s.strip().lower()`: the normalized form compared by the
repetition test. -/
def normText (s : String) : List Char :=
  (stripChars s.data).map Char.toLower

/-- `is_repeated_agent_prompt(current, previous)` from
`DynamicRunService.run_dynamic_conversation` (dynamic_run_service.py
lines 223-228): false if either text is falsy; otherwise compare the
stripped lower-cased texts for equality, or containment (`a in b`) when
the contained string is longer than 20 characters. -/
def is_repeated_agent_prompt (current previous : String) : Bool :=
  if current = "" || previous = "" then false
  else
    let a := normText current
    let b := normText previous
    a == b || (decide (a.length > 20) && containsChars b a) ||
      (decide (b.length > 20) && containsChars a b)

/-- Result of one call to the external generator
(`llm.generate_next_user_utterance`): failure (`success` falsy) or the
generated text. -/
inductive Gen where
  | fail
  | ok (text : String)
deriving DecidableEq, Repr

/-- The loop-carried locals of `run_dynamic_conversation`
(dynamic_run_service.py lines 218-321): `step_count`,
`last_agent_response`, and the length of `audio_results` (each
iteration appends exactly one entry, so `outcomes` also counts the
iterations executed).  `reps` is a ghost counter, not in the source,
counting the iterations on which the repetition test held. -/
structure DynState where
  stepCount : Nat
  lastAgent : String
  outcomes : Nat
  reps : Nat
deriving DecidableEq, Repr

/-- The body of one completed iteration of `run_dynamic_conversation`
after the generator produced a usable utterance: `step_count += 1`,
append the send result (`outcomes + 1`), extract the agent reply
(`reply s.outcomes`, the oracle indexed by iteration), then the
repetition check: on repetition `step_count -= 1` (and
`last_agent_response` is left unchanged), otherwise
`last_agent_response = bot_text`. -/
def dynStep (reply : Nat → String) (s : DynState) : DynState :=
  let sc := s.stepCount + 1
  let r := reply s.outcomes
  if is_repeated_agent_prompt r s.lastAgent then
    { stepCount := sc - 1, lastAgent := s.lastAgent, outcomes := s.outcomes + 1,
      reps := s.reps + 1 }
  else
    { stepCount := sc, lastAgent := r, outcomes := s.outcomes + 1, reps := s.reps }

/-- The `while step_count < max_steps` loop of
`run_dynamic_conversation`, with explicit fuel (the Python loop is
unbounded; `run_dynamic_conversation fuel s` runs at most `fuel`
iterations from state `s`).  `gen i` is the generator result for the
`i`-th iteration; a failed generation or an utterance that strips to
empty breaks out of the loop after the `step_count += 1` increment and
before appending any outcome.  TTS synthesis and the audio send are
absorbed into the `reply` oracle (the claims under study assume no
transport error). -/
def run_dynamic_conversation (maxSteps : Nat) (gen : Nat → Gen) (reply : Nat → String) :
    Nat → DynState → DynState
  | 0, s => s
  | fuel + 1, s =>
    if s.stepCount < maxSteps then
      match gen s.outcomes with
      | .fail => { s with stepCount := s.stepCount + 1 }
      | .ok t =>
        if stripChars t.data = [] then { s with stepCount := s.stepCount + 1 }
        else run_dynamic_conversation maxSteps gen reply fuel (dynStep reply s)
    else s

/-- The initial `DynState`: `step_count = 0`,
`last_agent_response = ""`, no outcomes. -/
def dynInit : DynState := ⟨0, "", 0, 0⟩

/-! ## Helper lemmas -/

theorem findSome?_none {α β : Type} {f : α → Option β} :
    ∀ {l : List α}, l.findSome? f = none → ∀ x ∈ l, f x = none := by
  intro l
  induction l with
  | nil => simp
  | cons a t ih =>
    intro h x hx
    cases hfa : f a with
    | some b => simp [List.findSome?, hfa] at h
    | none =>
      simp only [List.findSome?, hfa] at h
      rcases List.mem_cons.mp hx with rfl | hxt
      · exact hfa
      · exact ih h x hxt

theorem findSome?_isSome {α β : Type} {f : α → Option β} :
    ∀ {l : List α} {x : α}, x ∈ l → (f x).isSome → (l.findSome? f).isSome := by
  intro l x hx hfx
  cases h : l.findSome? f with
  | some b => rfl
  | none =>
    rw [findSome?_none h x hx] at hfx
    simp at hfx

theorem finalParse_some {m : RawMsg} {v : BotResponse} (h : finalParse m = some v) :
    ∃ r d, m = .json "response.text" r d ∧ r ≠ "" ∧ v = .parsed "response.text" r d := by
  cases m with
  | json t r d =>
    simp only [finalParse] at h
    split at h
    · rename_i hc
      obtain ⟨ht, hr⟩ := hc
      subst ht
      exact ⟨r, d, rfl, hr, (Option.some.inj h).symm⟩
    · exact Option.noConfusion h
  | unparseable s => exact Option.noConfusion h
  | binary p => exact Option.noConfusion h

theorem deltaParse_some {m : RawMsg} {v : BotResponse} (h : deltaParse m = some v) :
    ∃ r d, m = .json "response.text.delta" r d ∧ d ≠ "" ∧
      v = .parsed "response.text.delta" r d := by
  cases m with
  | json t r d =>
    simp only [deltaParse] at h
    split at h
    · rename_i hc
      obtain ⟨ht, hr⟩ := hc
      subst ht
      exact ⟨r, d, rfl, hr, (Option.some.inj h).symm⟩
    · exact Option.noConfusion h
  | unparseable s => exact Option.noConfusion h
  | binary p => exact Option.noConfusion h

/-- A frame that parses as a delta never parses as a final text. -/
theorem finalParse_of_delta {m : RawMsg} (h : (deltaParse m).isSome) :
    finalParse m = none := by
  cases hd : deltaParse m with
  | none => rw [hd] at h; simp at h
  | some v =>
    obtain ⟨r, d, rfl, _, _⟩ := deltaParse_some hd
    simp [finalParse]

theorem finalParse_ne_noResponse {m : RawMsg} {v : BotResponse}
    (h : finalParse m = some v) : v ≠ .noResponse := by
  obtain ⟨r, d, _, _, rfl⟩ := finalParse_some h
  simp

theorem deltaParse_ne_noResponse {m : RawMsg} {v : BotResponse}
    (h : deltaParse m = some v) : v ≠ .noResponse := by
  obtain ⟨r, d, _, _, rfl⟩ := deltaParse_some h
  simp

theorem findSome?_none_of_all {α β : Type} {f : α → Option β} {l : List α}
    (h : ∀ x ∈ l, f x = none) : l.findSome? f = none := by
  cases hfs : l.findSome? f with
  | none => rfl
  | some v =>
    obtain ⟨m, hm, hfm⟩ := List.exists_of_findSome?_eq_some hfs
    rw [h m hm] at hfm
    exact Option.noConfusion hfm

/-- When a complete text frame with content is in the buffer, the
timeout fallback returns the parse of such a frame. -/
theorem bestResponse_final {buf : List RawMsg} {m : RawMsg}
    (hm : m ∈ buf) (hf : (finalParse m).isSome) :
    ∃ m2 ∈ buf, finalParse m2 = some (bestResponse buf) := by
  have h := findSome?_isSome hm hf
  cases hfs : buf.findSome? finalParse with
  | none => rw [hfs] at h; simp at h
  | some v =>
    obtain ⟨m2, hm2, hf2⟩ := List.exists_of_findSome?_eq_some hfs
    refine ⟨m2, hm2, ?_⟩
    rw [hf2, bestResponse.eq_def, hfs]

/-- When no complete text frame is in the buffer but a delta frame with
content is, the timeout fallback returns the parse of such a delta
frame. -/
theorem bestResponse_delta {buf : List RawMsg} {m : RawMsg}
    (hnof : ∀ x ∈ buf, finalParse x = none) (hm : m ∈ buf) (hd : (deltaParse m).isSome) :
    ∃ m2 ∈ buf, deltaParse m2 = some (bestResponse buf) := by
  have hfs : buf.findSome? finalParse = none := findSome?_none_of_all hnof
  have h := findSome?_isSome hm hd
  cases hds : buf.findSome? deltaParse with
  | none => rw [hds] at h; simp at h
  | some v =>
    obtain ⟨m2, hm2, hd2⟩ := List.exists_of_findSome?_eq_some hds
    refine ⟨m2, hm2, ?_⟩
    rw [hd2, bestResponse.eq_def, hfs, hds]

/-- The timeout fallback over an empty buffer is the no-response
marker. -/
theorem bestResponse_nil : bestResponse [] = .noResponse := rfl

/-- When the buffer holds neither a complete text frame nor a delta
frame with content, the timeout fallback returns the first raw frame if
it is truthy, else the no-response marker. -/
theorem bestResponse_fallback {m : RawMsg} {rest : List RawMsg}
    (hno : ∀ x ∈ m :: rest, finalParse x = none ∧ deltaParse x = none) :
    bestResponse (m :: rest) = if rawTruthy m then .raw m else .noResponse := by
  have hfs : (m :: rest).findSome? finalParse = none :=
    findSome?_none_of_all fun x hx => (hno x hx).1
  have hds : (m :: rest).findSome? deltaParse = none :=
    findSome?_none_of_all fun x hx => (hno x hx).2
  rw [bestResponse.eq_def, hfs, hds]

/-- With a usable frame (final or delta, with content) in the buffer,
the timeout fallback is never the no-response marker. -/
theorem bestResponse_ne_noResponse {buf : List RawMsg} {m : RawMsg} (hm : m ∈ buf)
    (h : (finalParse m).isSome ∨ (deltaParse m).isSome) :
    bestResponse buf ≠ .noResponse := by
  rw [bestResponse.eq_def]
  cases hfs : buf.findSome? finalParse with
  | some v =>
    obtain ⟨m2, hm2, hf2⟩ := List.exists_of_findSome?_eq_some hfs
    exact finalParse_ne_noResponse hf2
  | none =>
    cases hds : buf.findSome? deltaParse with
    | some v =>
      obtain ⟨m2, hm2, hd2⟩ := List.exists_of_findSome?_eq_some hds
      exact deltaParse_ne_noResponse hd2
    | none =>
      cases h with
      | inl hf => rw [findSome?_none hfs m hm] at hf; simp at hf
      | inr hd => rw [findSome?_none hds m hm] at hd; simp at hd

/-- Characterization of one run of the handler race: when the overall
timeout fires, the returned value is the priority fallback over the
collected buffer and the wait lasted the full timeout; when it does not
fire, the returned value is the parse of a collected complete text
frame and the wait ended strictly before the timeout. -/
theorem waitLoop_spec (T : Nat) :
    ∀ (frames : List (Nat × RawMsg)) (now : Nat) (buf : List RawMsg),
      ((waitLoop T frames now buf).timedOut = true →
        (waitLoop T frames now buf).value = bestResponse (waitLoop T frames now buf).collected ∧
        (waitLoop T frames now buf).time = T) ∧
      ((waitLoop T frames now buf).timedOut = false →
        (∃ m ∈ (waitLoop T frames now buf).collected,
          finalParse m = some (waitLoop T frames now buf).value) ∧
        (waitLoop T frames now buf).time < T)
  | [], now, buf => by simp [waitLoop]
  | (a, m) :: rest, now, buf => by
    rw [waitLoop]
    split
    · simp
    · split
      · split
        · rename_i hnl hv hlt
          refine ⟨fun h => by simp at h, fun _ => ⟨⟨m, by simp, hv⟩, hlt⟩⟩
        · simp
      · exact waitLoop_spec T rest _ _

theorem lastRecvTime_cons {a : Nat} {x : RawMsg} {rest : List (Nat × RawMsg)}
    (h : rest ≠ []) (now : Nat) :
    lastRecvTime now ((a, x) :: rest) = lastRecvTime (max a now + pollMs) rest := by
  cases rest with
  | nil => exact absurd rfl h
  | cons b t => rfl

theorem le_lastRecvTime :
    ∀ (l : List (Nat × RawMsg)) (now : Nat), l ≠ [] → now ≤ lastRecvTime now l := by
  intro l
  induction l with
  | nil => simp
  | cons p t ih =>
    intro now _
    obtain ⟨a, x⟩ := p
    cases t with
    | nil => exact le_max_right a now
    | cons q t2 =>
      rw [lastRecvTime_cons (by simp)]
      calc now ≤ max a now + pollMs := le_trans (le_max_right a now) (Nat.le_add_right _ _)
        _ ≤ lastRecvTime (max a now + pollMs) (q :: t2) := ih _ (by simp)

/-- Early-resolution run of the handler: if every frame before the
first complete text frame is not a complete text frame, and that
frame's receive time plus the settle interval is still below the
timeout, the handler returns its parse at receive time plus settle,
without timing out, and ignores all later frames. -/
theorem waitLoop_early (T : Nat) :
    ∀ (pre : List (Nat × RawMsg)) (a : Nat) (m : RawMsg) (post : List (Nat × RawMsg))
      (v : BotResponse) (now : Nat) (buf : List RawMsg),
      (∀ x ∈ pre, finalParse x.2 = none) → finalParse m = some v →
      lastRecvTime now (pre ++ [(a, m)]) + settleMs < T →
      waitLoop T (pre ++ (a, m) :: post) now buf =
        ⟨v, lastRecvTime now (pre ++ [(a, m)]) + settleMs, false,
          buf ++ pre.map Prod.snd ++ [m]⟩
  | [], a, m, post, v, now, buf => by
    intro hpre hv ht
    have hr : lastRecvTime now ([] ++ [(a, m)]) = max a now := rfl
    rw [hr] at ht
    have hne : ¬ (T ≤ max a now) := by omega
    simp only [List.nil_append, waitLoop, hv]
    rw [if_neg hne, if_pos ht]
    simp [show lastRecvTime now [(a, m)] = max a now from rfl]
  | (a0, x) :: pre2, a, m, post, v, now, buf => by
    intro hpre hv ht
    have hrec : lastRecvTime now ((a0, x) :: (pre2 ++ [(a, m)])) =
        lastRecvTime (max a0 now + pollMs) (pre2 ++ [(a, m)]) :=
      lastRecvTime_cons (by simp) now
    have hle : max a0 now + pollMs ≤ lastRecvTime (max a0 now + pollMs) (pre2 ++ [(a, m)]) :=
      le_lastRecvTime _ _ (by simp)
    rw [List.cons_append] at ht ⊢
    rw [hrec] at ht
    have hne : ¬ (T ≤ max a0 now) := by omega
    simp only [waitLoop, hpre (a0, x) (List.mem_cons_self _ _)]
    rw [if_neg hne]
    rw [waitLoop_early T pre2 a m post v (max a0 now + pollMs) (buf ++ [x])
      (fun y hy => hpre y (List.mem_cons_of_mem _ hy)) hv ht]
    simp [hrec]

/-! ## Claims -/

/-- C1 (amended): whenever the overall timeout elapses before a
final-text frame is recognized, `wait_for_bot_response` returns the
best available frame among the frames collected so far, selected by
priority: a `response.text` frame with non-empty response text, else a
`response.text.delta` frame with non-empty delta text, else the first
frame received provided it is non-empty (an empty first raw frame
yields the no-response marker instead), else the no-response marker. -/
theorem claim_c1 (T : Nat) (frames : List (Nat × RawMsg))
    (h : (wait_for_bot_response T frames).timedOut = true) :
    ((∃ m ∈ (wait_for_bot_response T frames).collected, (finalParse m).isSome) →
      ∃ m ∈ (wait_for_bot_response T frames).collected,
        finalParse m = some (wait_for_bot_response T frames).value) ∧
    ((∀ m ∈ (wait_for_bot_response T frames).collected, finalParse m = none) →
      (∃ m ∈ (wait_for_bot_response T frames).collected, (deltaParse m).isSome) →
      ∃ m ∈ (wait_for_bot_response T frames).collected,
        deltaParse m = some (wait_for_bot_response T frames).value) ∧
    ((∀ m ∈ (wait_for_bot_response T frames).collected,
        finalParse m = none ∧ deltaParse m = none) →
      ∀ m0 rest, (wait_for_bot_response T frames).collected = m0 :: rest →
        (wait_for_bot_response T frames).value =
          if rawTruthy m0 then .raw m0 else .noResponse) ∧
    ((wait_for_bot_response T frames).collected = [] →
      (wait_for_bot_response T frames).value = .noResponse) := by
  simp only [wait_for_bot_response] at h ⊢
  obtain ⟨hval, -⟩ := (waitLoop_spec T frames 0 []).1 h
  refine ⟨?_, ?_, ?_, ?_⟩
  · rintro ⟨m, hm, hf⟩
    rw [hval]
    exact bestResponse_final hm hf
  · rintro hnof ⟨m, hm, hd⟩
    rw [hval]
    exact bestResponse_delta hnof hm hd
  · intro hno m0 rest hcol
    rw [hval, hcol]
    exact bestResponse_fallback (hcol ▸ hno)
  · intro hcol
    rw [hval, hcol]
    exact bestResponse_nil

/-- C1 witness: a single delta frame received before the timeout; the
wait times out and the value is the parse of that delta frame. -/
theorem claim_c1_witness :
    (wait_for_bot_response 1000 [(0, RawMsg.json "response.text.delta" "" "hi")]).timedOut
        = true ∧
    ∃ m ∈ (wait_for_bot_response 1000
        [(0, RawMsg.json "response.text.delta" "" "hi")]).collected,
      deltaParse m = some (wait_for_bot_response 1000
        [(0, RawMsg.json "response.text.delta" "" "hi")]).value :=
  ⟨by decide,
    (claim_c1 1000 [(0, RawMsg.json "response.text.delta" "" "hi")] (by decide)).2.1
      (by decide) (by decide)⟩

/-- C1 counterexample to the claim as stated: a single empty
unparseable frame is collected, yet the returned value is the
no-response marker rather than that first frame (the code returns
`best_response or no_response`, and an empty raw frame is falsy). -/
theorem claim_c1_counterexample :
    (wait_for_bot_response 1000 [(0, RawMsg.unparseable "")]).timedOut = true ∧
    (wait_for_bot_response 1000 [(0, RawMsg.unparseable "")]).collected
        = [RawMsg.unparseable ""] ∧
    (wait_for_bot_response 1000 [(0, RawMsg.unparseable "")]).value = .noResponse ∧
    (wait_for_bot_response 1000 [(0, RawMsg.unparseable "")]).value ≠
      .raw (RawMsg.unparseable "") := by
  decide

/-- C2 (amended): when only delta frames with content are collected
before the timeout elapses and at least one frame is collected,
`wait_for_bot_response` times out and returns the parse of the FIRST
collected delta frame (the fallback scan breaks at the first match, not
the last). -/
theorem claim_c2 (T : Nat) (frames : List (Nat × RawMsg))
    (hd : ∀ m ∈ (wait_for_bot_response T frames).collected, (deltaParse m).isSome)
    (hne : (wait_for_bot_response T frames).collected ≠ []) :
    (wait_for_bot_response T frames).timedOut = true ∧
    ∃ m rest, (wait_for_bot_response T frames).collected = m :: rest ∧
      deltaParse m = some (wait_for_bot_response T frames).value := by
  simp only [wait_for_bot_response] at hd hne ⊢
  have hto : (waitLoop T frames 0 []).timedOut = true := by
    cases hb : (waitLoop T frames 0 []).timedOut with
    | true => rfl
    | false =>
      obtain ⟨⟨m, hm, hf⟩, -⟩ := (waitLoop_spec T frames 0 []).2 hb
      rw [finalParse_of_delta (hd m hm)] at hf
      exact Option.noConfusion hf
  obtain ⟨hval, -⟩ := (waitLoop_spec T frames 0 []).1 hto
  refine ⟨hto, ?_⟩
  cases hcol : (waitLoop T frames 0 []).collected with
  | nil => exact absurd hcol hne
  | cons m0 rest =>
    refine ⟨m0, rest, rfl, ?_⟩
    have hd0 : (deltaParse m0).isSome := hd m0 (by rw [hcol]; exact List.mem_cons_self _ _)
    obtain ⟨v, hv⟩ := Option.isSome_iff_exists.mp hd0
    have hfs : (m0 :: rest).findSome? finalParse = none :=
      findSome?_none_of_all fun x hx =>
        finalParse_of_delta (hd x (by rw [hcol]; exact hx))
    rw [hval, hcol, bestResponse.eq_def, hfs]
    simp [List.findSome?, hv]

/-- C2 witness: a single delta frame with content; the wait times out
carrying that frame's parse. -/
theorem claim_c2_witness :
    (wait_for_bot_response 2000 [(0, RawMsg.json "response.text.delta" "" "x")]).timedOut
        = true ∧
    ∃ m rest,
      (wait_for_bot_response 2000
          [(0, RawMsg.json "response.text.delta" "" "x")]).collected = m :: rest ∧
      deltaParse m = some (wait_for_bot_response 2000
          [(0, RawMsg.json "response.text.delta" "" "x")]).value :=
  claim_c2 2000 [(0, RawMsg.json "response.text.delta" "" "x")] (by decide) (by decide)

/-- C2 counterexample to the claim as stated: two delta frames with
content, "a" then "b", both received before the timeout; the returned
value carries the first delta ("a"), not the last delta with content
("b"). -/
theorem claim_c2_counterexample :
    (wait_for_bot_response 60000 [(0, RawMsg.json "response.text.delta" "" "a"),
        (100, RawMsg.json "response.text.delta" "" "b")]).timedOut = true ∧
    (wait_for_bot_response 60000 [(0, RawMsg.json "response.text.delta" "" "a"),
        (100, RawMsg.json "response.text.delta" "" "b")]).collected.getLast?
      = some (RawMsg.json "response.text.delta" "" "b") ∧
    (wait_for_bot_response 60000 [(0, RawMsg.json "response.text.delta" "" "a"),
        (100, RawMsg.json "response.text.delta" "" "b")]).value
      = .parsed "response.text.delta" "" "a" ∧
    (wait_for_bot_response 60000 [(0, RawMsg.json "response.text.delta" "" "a"),
        (100, RawMsg.json "response.text.delta" "" "b")]).value
      ≠ .parsed "response.text.delta" "" "b" := by
  decide

/-- C3 (amended): when a `response.text` frame with non-empty response
text is received and its receive time plus the 500 ms settle interval
is still below the timeout (and no earlier frame was a complete text
frame), `wait_for_bot_response` resolves with that frame's parse at
receive time plus settle, strictly before the timeout; a final frame
received within the last settle interval before the deadline is instead
returned through the timeout fallback after the full timeout. -/
theorem claim_c3 (T : Nat) (pre : List (Nat × RawMsg)) (a : Nat) (m : RawMsg)
    (post : List (Nat × RawMsg)) (v : BotResponse)
    (hpre : ∀ x ∈ pre, finalParse x.2 = none) (hv : finalParse m = some v)
    (ht : lastRecvTime 0 (pre ++ [(a, m)]) + settleMs < T) :
    wait_for_bot_response T (pre ++ (a, m) :: post) =
      ⟨v, lastRecvTime 0 (pre ++ [(a, m)]) + settleMs, false,
        pre.map Prod.snd ++ [m]⟩ ∧
    (wait_for_bot_response T (pre ++ (a, m) :: post)).time < T := by
  have he := waitLoop_early T pre a m post v 0 [] hpre hv ht
  rw [wait_for_bot_response, he]
  exact ⟨by simp, ht⟩

/-- C3 witness: a final-text frame at time 0 with a 60 s timeout
resolves at 500 ms with that text. -/
theorem claim_c3_witness :
    wait_for_bot_response 60000 [(0, RawMsg.json "response.text" "hello" "")] =
      ⟨.parsed "response.text" "hello" "", 500, false,
        [RawMsg.json "response.text" "hello" ""]⟩ ∧
    (wait_for_bot_response 60000 [(0, RawMsg.json "response.text" "hello" "")]).time
      < 60000 :=
  claim_c3 60000 [] 0 (RawMsg.json "response.text" "hello" "") []
    (.parsed "response.text" "hello" "") (by simp) (by decide) (by decide)

/-- C3 counterexample to the claim as stated: a final-text frame
arriving at 59900 ms, before the 60000 ms timeout elapses, is returned
only at the full timeout (the settle sleep crosses the deadline), so
the wait does take the full timeout. -/
theorem claim_c3_counterexample :
    (wait_for_bot_response 60000 [(59900, RawMsg.json "response.text" "hi" "")]).timedOut
        = true ∧
    (wait_for_bot_response 60000 [(59900, RawMsg.json "response.text" "hi" "")]).time
        = 60000 ∧
    (wait_for_bot_response 60000 [(59900, RawMsg.json "response.text" "hi" "")]).value
        = .parsed "response.text" "hi" "" := by
  decide

/-- C4: when the very first (and only) inbound frame is a
`session.close` control frame, `wait_for_bot_response` keeps listening
until the full timeout and returns the raw unparsed frame, and
`wait_for_target_bot_greeting` then reports the generic no-greeting
error rather than the session-closed error naming the close kind: the
session-close branch of the greeting waiter never fires and nothing
returns early. -/
theorem claim_c4 :
    (wait_for_bot_response 60000 [(0, RawMsg.json "session.close" "" "")]).time
        = 60000 ∧
    (wait_for_bot_response 60000 [(0, RawMsg.json "session.close" "" "")]).timedOut
        = true ∧
    (wait_for_bot_response 60000 [(0, RawMsg.json "session.close" "" "")]).value
        = .raw (RawMsg.json "session.close" "" "") ∧
    wait_for_target_bot_greeting 60000 [(0, RawMsg.json "session.close" "" "")]
        = .noGreeting ∧
    GreetingOutcome.noGreeting ≠ GreetingOutcome.sessionClosedError "session.close" := by
  decide

/-- C5: a wait that collects zero frames returns the no-response marker
at the full timeout, and this outcome is distinct from any outcome of a
wait that collected a usable partial frame (a final or delta frame with
content). -/
theorem claim_c5 :
    (∀ (T : Nat) (frames : List (Nat × RawMsg)),
      (wait_for_bot_response T frames).collected = [] →
      (wait_for_bot_response T frames).value = .noResponse ∧
      (wait_for_bot_response T frames).timedOut = true ∧
      (wait_for_bot_response T frames).time = T) ∧
    (∀ (T : Nat) (frames : List (Nat × RawMsg)) (m : RawMsg),
      m ∈ (wait_for_bot_response T frames).collected →
      (finalParse m).isSome ∨ (deltaParse m).isSome →
      (wait_for_bot_response T frames).value ≠ .noResponse) := by
  constructor
  · intro T frames hcol
    simp only [wait_for_bot_response] at hcol ⊢
    cases hb : (waitLoop T frames 0 []).timedOut with
    | false =>
      obtain ⟨⟨m, hm, -⟩, -⟩ := (waitLoop_spec T frames 0 []).2 hb
      rw [hcol] at hm
      exact absurd hm (List.not_mem_nil m)
    | true =>
      obtain ⟨hval, htime⟩ := (waitLoop_spec T frames 0 []).1 hb
      exact ⟨by rw [hval, hcol]; exact bestResponse_nil, rfl, htime⟩
  · intro T frames m hm husable
    simp only [wait_for_bot_response] at hm ⊢
    cases hb : (waitLoop T frames 0 []).timedOut with
    | false =>
      obtain ⟨⟨mf, hmf, hf⟩, -⟩ := (waitLoop_spec T frames 0 []).2 hb
      intro hn
      rw [hn] at hf
      exact finalParse_ne_noResponse hf rfl
    | true =>
      obtain ⟨hval, -⟩ := (waitLoop_spec T frames 0 []).1 hb
      rw [hval]
      exact bestResponse_ne_noResponse hm husable

/-- C5 witness: an empty wait yields the no-response marker; a wait
that collected a delta frame with content does not. -/
theorem claim_c5_witness :
    ((wait_for_bot_response 1000 []).value = .noResponse ∧
      (wait_for_bot_response 1000 []).timedOut = true ∧
      (wait_for_bot_response 1000 []).time = 1000) ∧
    (wait_for_bot_response 1000 [(0, RawMsg.json "response.text.delta" "" "d")]).value
      ≠ .noResponse :=
  ⟨claim_c5.1 1000 [] (by decide),
    claim_c5.2 1000 [(0, RawMsg.json "response.text.delta" "" "d")]
      (RawMsg.json "response.text.delta" "" "d") (by decide) (Or.inr (by decide))⟩

theorem sentOutcomes_length (resp : Nat → String) :
    ∀ (l : List DownloadResult) (i : Nat), (sentOutcomes resp l i).length = l.length
  | [], _ => rfl
  | _ :: rest, i => by
    rw [sentOutcomes, List.length_cons, sentOutcomes_length resp rest (i + 1)]
    rfl

/-- Dispatch over `pre ++ dr :: rest` from item index `i`, where every
item of `pre` is available and successfully sent, the socket is open
for each of them, and the socket is found closed when `dr` comes up:
the result is the sent outcomes for `pre` followed by a single closed
abort entry for `dr`, and nothing for `rest`. -/
theorem sendAll_closed_after (closed : Nat → Bool) (fileExists : String → Bool)
    (send : Nat → Option String) (resp : Nat → String) (dr : DownloadResult)
    (rest : List DownloadResult) :
    ∀ (pre : List DownloadResult) (i : Nat),
      (∀ j, j < pre.length → closed (i + j) = false ∧ send (i + j) = some (resp (i + j))) →
      (∀ x ∈ pre, x.success = true ∧ fileExists x.filePath = true) →
      closed (i + pre.length) = true → dr.success = true →
      send_all_audio_files_sequentially closed fileExists send (pre ++ dr :: rest) i =
        sentOutcomes resp pre i ++ [.closedAbort dr.step (i + pre.length + 1)]
  | [], i => by
    intro hidx hpre hcl hdr
    rw [List.length_nil, Nat.add_zero] at hcl
    rw [List.nil_append]
    simp [send_all_audio_files_sequentially, hdr, hcl, sentOutcomes]
  | x :: pre2, i => by
    intro hidx hpre hcl hdr
    obtain ⟨hcli, hsendi⟩ := hidx 0 (by simp)
    rw [Nat.add_zero] at hcli hsendi
    obtain ⟨hx1, hx2⟩ := hpre x (List.mem_cons_self _ _)
    rw [List.cons_append]
    rw [send_all_audio_files_sequentially.eq_def]
    simp only [hx1, hcli, hx2, hsendi, if_true, Bool.false_eq_true, if_false,
      Bool.true_eq_false]
    rw [sendAll_closed_after closed fileExists send resp dr rest pre2 (i + 1)
      (fun j hj => by
        have h := hidx (j + 1) (by simpa using Nat.succ_lt_succ hj)
        rwa [show i + (j + 1) = i + 1 + j by omega] at h)
      (fun y hy => hpre y (List.mem_cons_of_mem _ hy))
      (by rwa [show i + 1 + pre2.length = i + (x :: pre2).length by
        simp only [List.length_cons]; omega]) hdr]
    rw [sentOutcomes]
    simp [show i + 1 + pre2.length + 1 = i + (pre2.length + 1) + 1 by omega]

/-- C8 (amended): dispatching an ordered sequence in which every item
before position k is available and successfully sent, and the
connection is found closed when item k+1 comes up, produces exactly the
outcomes for items 1..k followed by one abort-marker entry for item
k+1; no entry exists for any later item and no further send occurs. -/
theorem claim_c8 (closed : Nat → Bool) (fileExists : String → Bool)
    (send : Nat → Option String) (resp : Nat → String) (pre : List DownloadResult)
    (dr : DownloadResult) (rest : List DownloadResult)
    (hidx : ∀ j, j < pre.length → closed j = false ∧ send j = some (resp j))
    (hpre : ∀ x ∈ pre, x.success = true ∧ fileExists x.filePath = true)
    (hcl : closed pre.length = true) (hdr : dr.success = true) :
    send_all_audio_files_sequentially closed fileExists send (pre ++ dr :: rest) 0 =
      sentOutcomes resp pre 0 ++ [.closedAbort dr.step (pre.length + 1)] ∧
    (send_all_audio_files_sequentially closed fileExists send
        (pre ++ dr :: rest) 0).length = pre.length + 1 := by
  have h := sendAll_closed_after closed fileExists send resp dr rest pre 0
    (fun j hj => by simpa using hidx j hj)
    hpre (by simpa using hcl) hdr
  rw [show (0 : Nat) + pre.length = pre.length by omega] at h
  refine ⟨h, ?_⟩
  rw [h, List.length_append, sentOutcomes_length]
  simp

/-- C8 witness: two items sent, the socket found closed at the third;
the result is the two sent outcomes plus one abort entry. -/
theorem claim_c8_witness :
    send_all_audio_files_sequentially (fun i => decide (2 ≤ i)) (fun _ => true)
        (fun _ => some "ok")
        [⟨true, "step_1", "a.wav"⟩, ⟨true, "step_2", "b.wav"⟩,
          ⟨true, "step_3", "c.wav"⟩, ⟨true, "step_4", "d.wav"⟩] 0 =
      sentOutcomes (fun _ => "ok")
        [⟨true, "step_1", "a.wav"⟩, ⟨true, "step_2", "b.wav"⟩] 0 ++
        [.closedAbort "step_3" 3] ∧
    (send_all_audio_files_sequentially (fun i => decide (2 ≤ i)) (fun _ => true)
        (fun _ => some "ok")
        [⟨true, "step_1", "a.wav"⟩, ⟨true, "step_2", "b.wav"⟩,
          ⟨true, "step_3", "c.wav"⟩, ⟨true, "step_4", "d.wav"⟩] 0).length = 3 :=
  claim_c8 (fun i => decide (2 ≤ i)) (fun _ => true) (fun _ => some "ok")
    (fun _ => "ok") [⟨true, "step_1", "a.wav"⟩, ⟨true, "step_2", "b.wav"⟩]
    ⟨true, "step_3", "c.wav"⟩ [⟨true, "step_4", "d.wav"⟩]
    (fun j hj => by
      have hj2 : j < 2 := by simpa using hj
      exact ⟨by simp only [decide_eq_false_iff_not]; omega, rfl⟩)
    (by decide) (by decide) (by decide)

/-- C8 counterexample to the claim as stated: two successful items with
the socket found closed before item 2; the claim's "exactly the
outcomes for items 1 through k" would give one outcome, but the
dispatcher records two entries (the sent outcome for item 1 plus an
abort marker for item 2). -/
theorem claim_c8_counterexample :
    send_all_audio_files_sequentially (fun i => decide (1 ≤ i)) (fun _ => true)
        (fun _ => some "r") [⟨true, "step_1", "a.wav"⟩, ⟨true, "step_2", "b.wav"⟩] 0 =
      [.sent "step_1" 1 "r", .closedAbort "step_2" 2] ∧
    (send_all_audio_files_sequentially (fun i => decide (1 ≤ i)) (fun _ => true)
        (fun _ => some "r")
        [⟨true, "step_1", "a.wav"⟩, ⟨true, "step_2", "b.wav"⟩] 0).length ≠ 1 := by
  decide

theorem sendAll_length_of_open (closed : Nat → Bool) (fileExists : String → Bool)
    (send : Nat → Option String) (hclosed : ∀ j, closed j = false) :
    ∀ (l : List DownloadResult) (i : Nat),
      (send_all_audio_files_sequentially closed fileExists send l i).length = l.length
  | [], _ => rfl
  | dr :: rest, i => by
    rw [send_all_audio_files_sequentially.eq_def]
    simp only [hclosed i, Bool.false_eq_true, if_false]
    split
    · split
      · simp [sendAll_length_of_open closed fileExists send hclosed rest (i + 1)]
      · split <;>
          simp [sendAll_length_of_open closed fileExists send hclosed rest (i + 1)]
    · simp [sendAll_length_of_open closed fileExists send hclosed rest (i + 1)]

theorem sendAll_get?_sent (closed : Nat → Bool) (fileExists : String → Bool)
    (send : Nat → Option String) (hclosed : ∀ j, closed j = false) :
    ∀ (l : List DownloadResult) (i j : Nat) (x : DownloadResult) (r : String),
      l.get? j = some x → x.success = true → fileExists x.filePath = true →
      send (i + j) = some r →
      (send_all_audio_files_sequentially closed fileExists send l i).get? j =
        some (.sent x.step (i + j + 1) r)
  | [], i, j, x, r => by intro h; simp at h
  | dr :: rest, i, 0, x, r => by
    intro hget hxs hxf hsend
    rw [List.get?_cons_zero] at hget
    obtain rfl := Option.some.inj hget
    rw [Nat.add_zero] at hsend
    rw [send_all_audio_files_sequentially.eq_def]
    simp only [hxs, hclosed i, hxf, hsend, if_true, Bool.false_eq_true, if_false,
      Bool.true_eq_false]
    simp
  | dr :: rest, i, j + 1, x, r => by
    intro hget hxs hxf hsend
    rw [List.get?_cons_succ] at hget
    rw [show i + (j + 1) = i + 1 + j by omega] at hsend
    have htail := sendAll_get?_sent closed fileExists send hclosed rest (i + 1) j x r
      hget hxs hxf hsend
    rw [show i + (j + 1) + 1 = i + 1 + j + 1 by omega]
    rw [send_all_audio_files_sequentially.eq_def]
    simp only [hclosed i, Bool.false_eq_true, if_false]
    split
    · split
      · simpa using htail
      · split <;> simpa using htail
    · simpa using htail

/-- C9: when an item's download succeeded but its audio file is missing
on disk (and the connection stays open), the dispatcher records a
localized file-missing entry for that item and continues: every
remaining item still gets an outcome (the result has one entry per
item), and every later available item with a successful send gets a
sent outcome at its position. -/
theorem claim_c9 (closed : Nat → Bool) (fileExists : String → Bool)
    (send : Nat → Option String) (dr : DownloadResult) (rest : List DownloadResult)
    (i : Nat) (hclosed : ∀ j, closed j = false) (hdr : dr.success = true)
    (hmiss : fileExists dr.filePath = false) :
    send_all_audio_files_sequentially closed fileExists send (dr :: rest) i =
      .fileMissing dr.step (i + 1) ::
        send_all_audio_files_sequentially closed fileExists send rest (i + 1) ∧
    (send_all_audio_files_sequentially closed fileExists send (dr :: rest) i).length =
      rest.length + 1 ∧
    (∀ (j : Nat) (x : DownloadResult) (r : String),
      rest.get? j = some x → x.success = true → fileExists x.filePath = true →
      send (i + 1 + j) = some r →
      (send_all_audio_files_sequentially closed fileExists send (dr :: rest) i).get?
          (j + 1) = some (.sent x.step (i + 1 + j + 1) r)) := by
  have hhead :
      send_all_audio_files_sequentially closed fileExists send (dr :: rest) i =
      .fileMissing dr.step (i + 1) ::
        send_all_audio_files_sequentially closed fileExists send rest (i + 1) := by
    rw [send_all_audio_files_sequentially.eq_def]
    simp [hdr, hclosed i, hmiss]
  refine ⟨hhead, ?_, ?_⟩
  · rw [sendAll_length_of_open closed fileExists send hclosed]
    simp
  · intro j x r hget hxs hxf hsend
    rw [hhead, List.get?_cons_succ]
    exact sendAll_get?_sent closed fileExists send hclosed rest (i + 1) j x r
      hget hxs hxf hsend

/-- C9 witness: the first item's file is missing, the second is
available; the missing file yields a localized entry and the second
item is still sent. -/
theorem claim_c9_witness :
    send_all_audio_files_sequentially (fun _ => false)
        (fun p => decide (p = "b.wav")) (fun _ => some "ok")
        [⟨true, "step_1", "a.wav"⟩, ⟨true, "step_2", "b.wav"⟩] 0 =
      .fileMissing "step_1" 1 ::
        send_all_audio_files_sequentially (fun _ => false)
          (fun p => decide (p = "b.wav")) (fun _ => some "ok")
          [⟨true, "step_2", "b.wav"⟩] 1 ∧
    (send_all_audio_files_sequentially (fun _ => false)
        (fun p => decide (p = "b.wav")) (fun _ => some "ok")
        [⟨true, "step_1", "a.wav"⟩, ⟨true, "step_2", "b.wav"⟩] 0).get? 1 =
      some (.sent "step_2" 2 "ok") :=
  have h := claim_c9 (fun _ => false) (fun p => decide (p = "b.wav"))
    (fun _ => some "ok") ⟨true, "step_1", "a.wav"⟩ [⟨true, "step_2", "b.wav"⟩] 0
    (fun _ => rfl) (by decide) (by decide)
  ⟨h.1, h.2.2 0 ⟨true, "step_2", "b.wav"⟩ "ok" (by decide) (by decide) (by decide) rfl⟩

/-- C6 (amended): the repetition test holds exactly when both replies
are non-empty and, after stripping and lower-casing, the texts are
equal or one is contained in the other with the contained string longer
than 20 characters; a held test leaves the step counter and the
last-reply reference unchanged for that iteration, a failed test
advances the counter and updates the last-reply reference; in
particular the date-of-birth pair triggers the test and an unrelated
pair does not. -/
theorem claim_c6 :
    (∀ current previous : String,
      is_repeated_agent_prompt current previous = true ↔
        (current ≠ "" ∧ previous ≠ "" ∧
          (normText current = normText previous ∨
            ((normText current).length > 20 ∧
              containsChars (normText previous) (normText current) = true) ∨
            ((normText previous).length > 20 ∧
              containsChars (normText current) (normText previous) = true)))) ∧
    (∀ (reply : Nat → String) (s : DynState),
      (is_repeated_agent_prompt (reply s.outcomes) s.lastAgent = true →
        (dynStep reply s).stepCount = s.stepCount ∧
        (dynStep reply s).lastAgent = s.lastAgent) ∧
      (is_repeated_agent_prompt (reply s.outcomes) s.lastAgent = false →
        (dynStep reply s).stepCount = s.stepCount + 1 ∧
        (dynStep reply s).lastAgent = reply s.outcomes)) ∧
    is_repeated_agent_prompt "please provide your date of birth"
      "Please provide your date of birth." = true ∧
    is_repeated_agent_prompt "Please provide your date of birth."
      "please provide your date of birth" = true ∧
    is_repeated_agent_prompt "I want to confirm my appointment"
      "What is your date of birth?" = false := by
  refine ⟨?_, ?_, by decide, by decide, by decide⟩
  · intro c p
    rw [is_repeated_agent_prompt]
    split
    · rename_i hcp
      simp only [Bool.or_eq_true, decide_eq_true_iff] at hcp
      constructor
      · intro h
        exact absurd h (by simp)
      · intro h
        rcases hcp with h0 | h0
        · exact absurd h0 h.1
        · exact absurd h0 h.2.1
    · rename_i hcp
      simp only [Bool.or_eq_true, decide_eq_true_iff, not_or] at hcp
      simp only [Bool.or_eq_true, Bool.and_eq_true, decide_eq_true_iff, beq_iff_eq]
      constructor
      · intro h
        exact ⟨hcp.1, hcp.2, by tauto⟩
      · intro h
        tauto
  · intro reply s
    constructor
    · intro h
      simp [dynStep, h]
    · intro h
      simp [dynStep, h]

/-- C6 witness: the date-of-birth repetition leaves the step counter
and last-reply reference of a concrete state unchanged. -/
theorem claim_c6_witness :
    (dynStep (fun _ => "please provide your date of birth")
        ⟨2, "Please provide your date of birth.", 2, 0⟩).stepCount = 2 ∧
    (dynStep (fun _ => "please provide your date of birth")
        ⟨2, "Please provide your date of birth.", 2, 0⟩).lastAgent
      = "Please provide your date of birth." :=
  (claim_c6.2.1 (fun _ => "please provide your date of birth")
    ⟨2, "Please provide your date of birth.", 2, 0⟩).1 (by decide)

/-- C6 counterexample to the biconditional as stated: for the pair of
empty replies the normalized texts are equal, yet the repetition test
does not hold (the code's falsiness guard returns False before
normalizing), so "holds exactly when the normalized texts are equal or
contained" fails at this input. -/
theorem claim_c6_counterexample :
    is_repeated_agent_prompt "" "" = false ∧ normText "" = normText "" := by
  decide

/-- Helper for C7: when the generator never fails or returns
empty-after-strip and no reply along the trace triggers the repetition
test, the loop advances the step counter by one per iteration: started
at step `n` with enough fuel it ends exactly at `maxSteps` with one
outcome per step. -/
theorem dynRun_no_repeat (maxSteps : Nat) (gen : Nat → Gen) (reply : Nat → String)
    (hgen : ∀ i, ∃ t, gen i = Gen.ok t ∧ stripChars t.data ≠ [])
    (hrep : ∀ i, is_repeated_agent_prompt (reply i)
      (if i = 0 then "" else reply (i - 1)) = false) :
    ∀ (fuel n : Nat), n ≤ maxSteps → maxSteps ≤ n + fuel →
      run_dynamic_conversation maxSteps gen reply fuel
        ⟨n, if n = 0 then "" else reply (n - 1), n, 0⟩ =
      ⟨maxSteps, if maxSteps = 0 then "" else reply (maxSteps - 1), maxSteps, 0⟩
  | 0, n => by
    intro h1 h2
    have hn : n = maxSteps := by omega
    subst hn
    rfl
  | fuel + 1, n => by
    intro h1 h2
    by_cases hn : n < maxSteps
    · obtain ⟨t, hgt, hts⟩ := hgen n
      rw [run_dynamic_conversation]
      simp only [hn, if_true, hgt, hts, if_neg hts]
      have hstep : dynStep reply ⟨n, if n = 0 then "" else reply (n - 1), n, 0⟩ =
          ⟨n + 1, reply n, n + 1, 0⟩ := by
        rw [dynStep]
        simp only [hrep n]
        rfl
      rw [hstep]
      have := dynRun_no_repeat maxSteps gen reply hgen hrep fuel (n + 1)
        (by omega) (by omega)
      rw [show (⟨n + 1, reply n, n + 1, 0⟩ : DynState) =
        ⟨n + 1, if n + 1 = 0 then "" else reply (n + 1 - 1), n + 1, 0⟩ from by simp]
      exact this
    · have hn2 : n = maxSteps := by omega
      subst hn2
      rw [run_dynamic_conversation]
      simp [hn]

/-- C7: with a generator that never fails and never returns an
utterance that strips to empty, and a reply trace on which the
repetition test never holds, the dynamic loop terminates after exactly
`maxSteps` iterations (for any fuel of at least `maxSteps`, so the
result no longer depends on the fuel) with a step counter of `maxSteps`
and exactly `maxSteps` recorded outcomes. -/
theorem claim_c7 (maxSteps : Nat) (gen : Nat → Gen) (reply : Nat → String) (fuel : Nat)
    (hgen : ∀ i, ∃ t, gen i = Gen.ok t ∧ stripChars t.data ≠ [])
    (hrep : ∀ i, is_repeated_agent_prompt (reply i)
      (if i = 0 then "" else reply (i - 1)) = false)
    (hfuel : maxSteps ≤ fuel) :
    (run_dynamic_conversation maxSteps gen reply fuel dynInit).stepCount = maxSteps ∧
    (run_dynamic_conversation maxSteps gen reply fuel dynInit).outcomes = maxSteps := by
  have h := dynRun_no_repeat maxSteps gen reply hgen hrep fuel 0 (Nat.zero_le _)
    (by omega)
  rw [show dynInit = (⟨0, if (0 : Nat) = 0 then "" else reply (0 - 1), 0, 0⟩ : DynState)
    from by simp [dynInit]]
  rw [h]
  exact ⟨rfl, rfl⟩

/-- C7 witness: two steps with a generator that always produces "hi"
and empty agent replies (which never trigger the repetition guard); the
loop ends at step counter 2 with 2 outcomes. -/
theorem claim_c7_witness :
    (run_dynamic_conversation 2 (fun _ => Gen.ok "hi") (fun _ => "") 2
        dynInit).stepCount = 2 ∧
    (run_dynamic_conversation 2 (fun _ => Gen.ok "hi") (fun _ => "") 2
        dynInit).outcomes = 2 :=
  claim_c7 2 (fun _ => Gen.ok "hi") (fun _ => "") 2
    (fun _ => ⟨"hi", rfl, by decide⟩) (fun _ => rfl) (by decide)

/-- Helper for C10: outcome count stays equal to step counter plus
repetition count when the generator never fails or returns empty. -/
theorem dynRun_outcome_inv (maxSteps : Nat) (gen : Nat → Gen) (reply : Nat → String)
    (hgen : ∀ i, ∃ t, gen i = Gen.ok t ∧ stripChars t.data ≠ []) :
    ∀ (fuel : Nat) (s : DynState), s.outcomes = s.stepCount + s.reps →
      (run_dynamic_conversation maxSteps gen reply fuel s).outcomes =
        (run_dynamic_conversation maxSteps gen reply fuel s).stepCount +
          (run_dynamic_conversation maxSteps gen reply fuel s).reps
  | 0, s => fun h => h
  | fuel + 1, s => by
    intro hinv
    rw [run_dynamic_conversation]
    by_cases hn : s.stepCount < maxSteps
    · obtain ⟨t, hgt, hts⟩ := hgen s.outcomes
      simp only [hn, if_true, hgt, if_neg hts]
      refine dynRun_outcome_inv maxSteps gen reply hgen fuel (dynStep reply s) ?_
      rw [dynStep]
      split
      · simp
        omega
      · simp
        omega
    · simp only [hn, if_false]
      exact hinv

/-- Helper for C10: from a state whose step counter is below the budget
and whose last reply makes every oracle reply trigger the repetition
test, every unit of fuel runs one more iteration: the step counter and
last reply never change and one outcome (and one repetition) is added
per iteration, so the loop never reaches the exit condition. -/
theorem dynRun_all_repeat (maxSteps : Nat) (gen : Nat → Gen) (reply : Nat → String)
    (hgen : ∀ i, ∃ t, gen i = Gen.ok t ∧ stripChars t.data ≠ []) :
    ∀ (fuel : Nat) (s : DynState), s.stepCount < maxSteps →
      (∀ n, is_repeated_agent_prompt (reply n) s.lastAgent = true) →
      run_dynamic_conversation maxSteps gen reply fuel s =
        ⟨s.stepCount, s.lastAgent, s.outcomes + fuel, s.reps + fuel⟩
  | 0, s => by
    intro h1 h2
    cases s
    rfl
  | fuel + 1, s => by
    intro h1 h2
    obtain ⟨t, hgt, hts⟩ := hgen s.outcomes
    rw [run_dynamic_conversation]
    simp only [h1, if_true, hgt, if_neg hts]
    have hstep : dynStep reply s =
        ⟨s.stepCount, s.lastAgent, s.outcomes + 1, s.reps + 1⟩ := by
      rw [dynStep]
      simp only [h2 s.outcomes, if_true]
      simp
    rw [hstep]
    rw [dynRun_all_repeat maxSteps gen reply hgen fuel
      ⟨s.stepCount, s.lastAgent, s.outcomes + 1, s.reps + 1⟩ h1 h2]
    simp
    omega

/-- C10: the iteration count and outcome count of the dynamic loop are
not bounded by `maxSteps`: (A) with a generator that never fails or
returns empty, the outcome count always equals the step counter plus
the number of repetition-detected iterations, so a run from the initial
state that exits the loop with step counter `maxSteps` after `k`
detected repetitions has recorded exactly `maxSteps + k` outcomes (one
per iteration); and (B) from any state below the step budget whose
stored last reply makes every subsequent reply trigger the repetition
test, the loop runs one iteration per unit of fuel without ever
advancing the step counter, i.e. it never terminates. -/
theorem claim_c10 (maxSteps : Nat) (gen : Nat → Gen) (reply : Nat → String)
    (hgen : ∀ i, ∃ t, gen i = Gen.ok t ∧ stripChars t.data ≠ []) :
    (∀ fuel : Nat,
      (run_dynamic_conversation maxSteps gen reply fuel dynInit).stepCount = maxSteps →
      (run_dynamic_conversation maxSteps gen reply fuel dynInit).outcomes =
        maxSteps + (run_dynamic_conversation maxSteps gen reply fuel dynInit).reps) ∧
    (∀ (fuel : Nat) (s : DynState), s.stepCount < maxSteps →
      (∀ n, is_repeated_agent_prompt (reply n) s.lastAgent = true) →
      run_dynamic_conversation maxSteps gen reply fuel s =
        ⟨s.stepCount, s.lastAgent, s.outcomes + fuel, s.reps + fuel⟩) := by
  constructor
  · intro fuel hexit
    have h := dynRun_outcome_inv maxSteps gen reply hgen fuel dynInit rfl
    rw [h, hexit]
  · exact dynRun_all_repeat maxSteps gen reply hgen

/-- C10 witness: (A) a 3-step run with two detected repetitions records
5 = 3 + 2 outcomes; (B) from step counter 1 with budget 2 and a
constantly repeated long reply, 4 units of fuel yield 4 more outcomes
with the step counter still at 1. -/
theorem claim_c10_witness :
    ((run_dynamic_conversation 3 (fun _ => Gen.ok "hi")
        (fun i => ["alpha one", "alpha one", "beta two", "beta two",
          "gamma three"].getD i "") 5 dynInit).outcomes =
      3 + (run_dynamic_conversation 3 (fun _ => Gen.ok "hi")
        (fun i => ["alpha one", "alpha one", "beta two", "beta two",
          "gamma three"].getD i "") 5 dynInit).reps ∧
      (run_dynamic_conversation 3 (fun _ => Gen.ok "hi")
        (fun i => ["alpha one", "alpha one", "beta two", "beta two",
          "gamma three"].getD i "") 5 dynInit).outcomes = 5) ∧
    run_dynamic_conversation 2 (fun _ => Gen.ok "hi")
        (fun _ => "this is a long repeated agent prompt") 4
        ⟨1, "this is a long repeated agent prompt", 1, 0⟩ =
      ⟨1, "this is a long repeated agent prompt", 1 + 4, 0 + 4⟩ :=
  ⟨⟨(claim_c10 3 (fun _ => Gen.ok "hi")
      (fun i => ["alpha one", "alpha one", "beta two", "beta two",
        "gamma three"].getD i "")
      (fun _ => ⟨"hi", rfl, by decide⟩)).1 5 (by decide), by decide⟩,
    (claim_c10 2 (fun _ => Gen.ok "hi")
      (fun _ => "this is a long repeated agent prompt")
      (fun _ => ⟨"hi", rfl, by decide⟩)).2 4
      ⟨1, "this is a long repeated agent prompt", 1, 0⟩ (by decide)
      (fun _ => by decide)⟩

end Conversation
